import Mathlib

/-!
Verification of the PDF aggregation pipeline in `src/main.py`.

The Python source is shallowly embedded: pure helpers (`find_pdfs`' sort key,
`sanitize_bookmark_title`, the truncation logic of `summarize_text`, ...) become
Lean functions on `String`/`List Char`; the external libraries (PyPDF2, sumy,
langdetect) are modelled by the observable behaviour the script depends on
(a `PdfFile` record of what `PdfReader` would report, and abstract `detect`/`rank`
functions standing for `langdetect.detect` and the sumy TextRank call, returning
`none` where the library call would raise).  File-system effects are modelled as
explicit association lists.
-/

/-! ## Python string primitives used by the script -/

/-- Python `os.path.basename`: everything after the last `'/'`. -/
def pyBasename (p : String) : String :=
  ⟨(p.data.reverse.takeWhile (fun c => c ≠ '/')).reverse⟩

/-- Python `os.path.splitext(p)[0]` for a path without separators (the script
always applies it to `os.path.basename(pdf_path)`): drop the suffix starting at
the last `'.'`, unless that dot is at index 0 or everything before it is dots. -/
def pyStem (p : String) : String :=
  let cs := p.data
  let revIdx := cs.reverse.findIdx (fun c => c = '.')
  if revIdx < cs.length then
    -- index of the last '.' in `cs`
    let i := cs.length - 1 - revIdx
    if 0 < i ∧ (cs.take i).any (fun c => c ≠ '.') then ⟨cs.take i⟩ else p
  else p

/-- Python `s[:k]` for an `int` bound `k`: a negative bound counts from the end,
clamped at 0. -/
def pySlice (cs : List Char) (k : Int) : List Char :=
  if k < 0 then cs.take (cs.length - min cs.length k.natAbs)
  else cs.take k.toNat

/-- Python `s.rfind(c)`: index of the last occurrence, `-1` if absent. -/
def pyRfind (cs : List Char) (c : Char) : Int :=
  let revIdx := cs.reverse.findIdx (fun d => d = c)
  if revIdx < cs.length then (cs.length : Int) - 1 - revIdx else -1

/-- ASCII model of Python's `\s` class (the documents' text is treated at the
code-point level). -/
def pyIsSpace (c : Char) : Bool :=
  c = ' ' || c = '\t' || c = '\n' || c = '\r' || c = '\x0b' || c = '\x0c'

/-- Collapse every maximal run of whitespace to a single `' '`
(the effect of `re.sub(r"\s+", ' ', s)`). -/
def collapseWs : List Char → List Char
  | [] => []
  | [c] => if pyIsSpace c then [' '] else [c]
  | c :: d :: cs =>
    if pyIsSpace c && pyIsSpace d then collapseWs (d :: cs)
    else (if pyIsSpace c then ' ' else c) :: collapseWs (d :: cs)

/-- Python `s.strip()`. -/
def pyStrip (cs : List Char) : List Char :=
  ((cs.dropWhile pyIsSpace).reverse.dropWhile pyIsSpace).reverse

/-- Whitespace normalisation of `extract_text_from_pdf` (src/main.py line 86):
`re.sub(r"\s+", ' ', combined).strip()`. -/
def normalizeWs (s : String) : String :=
  ⟨pyStrip (collapseWs s.data)⟩

/-- Python `os.path.dirname` (posix): the head up to the last `'/'`, with
trailing slashes stripped unless the head is all slashes; `""` when there is no
separator. -/
def pyDirname (p : String) : String :=
  let cs := p.data
  let revIdx := cs.reverse.findIdx (fun c => c = '/')
  if revIdx < cs.length then
    let head := cs.take (cs.length - revIdx)
    if head.all (fun c => c = '/') then ⟨head⟩
    else ⟨(head.reverse.dropWhile (fun c => c = '/')).reverse⟩
  else ""

/-- Python `os.path.join(a, b)` for a relative second component. -/
def pyJoin (a b : String) : String :=
  if a = "" then b
  else if a.data.getLast? = some '/' then a ++ b
  else a ++ "/" ++ b

/-! ## Data model

`PdfFile` records what `PyPDF2.PdfReader` would observably report for one input
file: whether it opens at all (`readable` is false for the corrupt/unreadable
case, where every reader call raises), whether it `is_encrypted`, whether the
empty-password `decrypt('')` attempt succeeds, the page count, the metadata
title (`""` when absent), the per-page extracted texts, and whether
`PdfMerger.append` raises on it (the one call in the per-document loop of
`merge_and_process` whose exceptions are caught only by the loop's own
`try/except`). -/

structure PdfFile where
  path : String
  readable : Bool
  encrypted : Bool
  decryptable : Bool
  pages : Nat
  title : String
  pageTexts : List String
  appendRaises : Bool

/-- Result of `get_pdf_metadata` (src/main.py lines 92-117). -/
structure PdfMeta where
  title : String
  pages : Nat
deriving DecidableEq

/-- One element of the JSON index (src/main.py lines 253-259). -/
structure Entry where
  bookmark : String
  page_number : Nat
  page_count : Nat
  summary : String
  filename : String
deriving DecidableEq

/-- The validated configuration consumed by `merge_and_process` (only the
fields the modelled core reads; `input`/`recursive` feed `find_pdfs`, which is
modelled directly on the discovered path list). -/
structure Args where
  output : String
  num_sentences : Nat
  max_chars : Int

/-- `extract_text_from_pdf` (src/main.py lines 68-89): unreadable or
undecryptable files yield `''`; otherwise the page texts are joined with
`'\n'` and whitespace-normalised. -/
def extract_text_from_pdf (f : PdfFile) : String :=
  if !f.readable then ""
  else if f.encrypted && !f.decryptable then ""
  else normalizeWs (String.intercalate "\n" f.pageTexts)

/-- `get_pdf_metadata` (src/main.py lines 92-117): unreadable or undecryptable
files yield the default `{"title": "", "pages": 0}`. -/
def get_pdf_metadata (f : PdfFile) : PdfMeta :=
  if !f.readable then ⟨"", 0⟩
  else if f.encrypted && !f.decryptable then ⟨"", 0⟩
  else ⟨f.title, f.pages⟩

/-- The conditions under which extraction fails: the file is unreadable
(corrupt) or encrypted and not decryptable with the empty password. -/
def extractionFailed (f : PdfFile) : Bool :=
  !f.readable || (f.encrypted && !f.decryptable)

/-! ## Title sanitizer -/

/-- The character class of `re.sub(r'[\\/*?:"<>|]', '-', title)`
(src/main.py line 147). -/
def forbiddenChar (c : Char) : Bool :=
  c = '\\' || c = '/' || c = '*' || c = '?' || c = ':' || c = '"' ||
  c = '<' || c = '>' || c = '|'

/-- `sanitize_bookmark_title` (src/main.py lines 142-153).  The slice
`title[:max_length-3]` uses Python slicing, so a `max_length` below 3 slices
from the end of the string. -/
def sanitize_bookmark_title (title : String) (max_length : Nat := 100) : String :=
  let t := title.data.map (fun c => if forbiddenChar c then '-' else c)
  if max_length < t.length then
    ⟨pySlice t ((max_length : Int) - 3) ++ "...".data⟩
  else ⟨t⟩

/-! ## Tokenizer selection and summarizer -/

/-- `get_tokenizer_for_language` (src/main.py lines 156-174).  `hasLangdetect`
models the import-time `HAS_LANGDETECT` flag; `detect` models
`langdetect.detect`, with `none` for the raising case.  The returned string is
the language name passed to `sumy.nlp.tokenizers.Tokenizer`. -/
def get_tokenizer_for_language (hasLangdetect : Bool)
    (detect : String → Option String) (text : String) : String :=
  if !hasLangdetect || text = "" then "english"
  else
    match detect ⟨text.data.take 1000⟩ with
    | none => "english"
    | some lang =>
      if lang = "ko" then "korean"
      else if ("zh".data).isPrefixOf lang.data then "chinese"
      else if lang = "ja" then "japanese"
      else "english"

/-- The input-truncation step of `summarize_text` (src/main.py lines 184-191).
The float test `last_period > max_chars * 0.8` is modelled by the exact
rational comparison `5 * last_period > 4 * max_chars`. -/
def truncateForSummary (text : String) (max_chars : Int) : String :=
  if 0 < max_chars ∧ max_chars < (text.length : Int) then
    let truncated := text.data.take max_chars.toNat
    let lastPeriod := pyRfind truncated '.'
    if 5 * lastPeriod > 4 * max_chars then
      ⟨truncated.take (lastPeriod + 1).toNat⟩
    else ⟨truncated⟩
  else text

/-- `summarize_text` (src/main.py lines 177-203).  `rank text tokenizer n`
models `' '.join(str(s) for s in TextRankSummarizer()(PlaintextParser.from_string(text, tokenizer).document, n))`,
with `none` for the raising case, in which the code falls back to the first 200
characters plus `"..."`. -/
def summarize_text (hasLangdetect : Bool) (detect : String → Option String)
    (rank : String → String → Nat → Option String)
    (text : String) (num_sentences : Nat) (max_chars : Int) : String :=
  if text = "" then ""
  else
    let t := truncateForSummary text max_chars
    let tokenizer := get_tokenizer_for_language hasLangdetect detect t
    match rank t tokenizer num_sentences with
    | some s => s
    | none => ⟨t.data.take 200⟩ ++ "..."

/-! ## Document locator

`find_pdfs` (src/main.py lines 120-139) lists the directory (or walks it
recursively), keeps the names whose lowercased form ends in `.pdf`, and sorts
the joined paths with `natural_sort_key`.  The file system is abstracted as the
list of discovered paths; the key is embedded exactly: `re.split(r'(\d+)', s)`
yields non-digit and digit runs alternating, with (possibly empty) non-digit
runs at both ends, digit runs become their numeric value via `int`, non-digit
runs are lowercased.  Python's list comparison only ever compares elements of
equal parity, hence of the same kind; the unreachable cross-kind case is
completed by `num < str`. -/

inductive NatKeyElem where
  | num (n : Nat)
  | str (s : List Char)
deriving DecidableEq

/-- Maximal runs of the characters of a string, each tagged with whether it is
a digit run (the run structure produced by `re.split(r'(\d+)', s)`). -/
def splitRuns : List Char → List (Bool × List Char)
  | [] => []
  | c :: cs =>
    match splitRuns cs with
    | [] => [(c.isDigit, [c])]
    | (b, run) :: rest =>
      if c.isDigit = b then (b, c :: run) :: rest
      else (c.isDigit, [c]) :: (b, run) :: rest

/-- Numeric value of a digit run (Python `int`). -/
def digitsVal (cs : List Char) : Nat :=
  cs.foldl (fun acc c => acc * 10 + (c.toNat - 48)) 0

/-- `int(text) if text.isdigit() else text.lower()` for one run. -/
def runToElem : Bool × List Char → NatKeyElem
  | (true, r) => .num (digitsVal r)
  | (false, r) => .str (r.map Char.toLower)

/-- `natural_sort_key` (src/main.py lines 136-137).  The `re.split` result
starts and ends with a (possibly empty) non-digit part, so empty `.str []`
sentinels are restored at the ends where the string starts or ends with a
digit. -/
def natural_sort_key (s : String) : List NatKeyElem :=
  match splitRuns s.data with
  | [] => [.str []]
  | rs =>
    let body := rs.map runToElem
    let withLead :=
      match rs.head? with
      | some (true, _) => NatKeyElem.str [] :: body
      | _ => body
    match rs.getLast? with
    | some (true, _) => withLead ++ [NatKeyElem.str []]
    | _ => withLead

/-- Three-way comparison on `Nat` (self-contained stand-in for `compare`). -/
def natCmp (a b : Nat) : Ordering :=
  if a < b then .lt else if b < a then .gt else .eq

/-- Python character comparison: by code point. -/
def charCmp (a b : Char) : Ordering :=
  natCmp a.toNat b.toNat

/-- Lexicographic list comparison over an element comparison, with the Python
rule that a strict prefix is smaller. -/
def listCmp (c : α → α → Ordering) : List α → List α → Ordering
  | [], [] => .eq
  | [], _ :: _ => .lt
  | _ :: _, [] => .gt
  | a :: as, b :: bs =>
    match c a b with
    | .eq => listCmp c as bs
    | o => o

/-- Comparison of key elements: numbers numerically, strings lexicographically
by code point (they were already lowercased by the key); the cross-kind case —
unreachable between genuine keys, where kinds align by parity — is completed by
`num < str`. -/
def elemCmp : NatKeyElem → NatKeyElem → Ordering
  | .num a, .num b => natCmp a b
  | .num _, .str _ => .lt
  | .str _, .num _ => .gt
  | .str a, .str b => listCmp charCmp a b

/-- The ascending-order relation `sorted` uses: key of `a` not greater than key
of `b`. -/
def natSortLe (a b : String) : Bool :=
  match listCmp elemCmp (natural_sort_key a) (natural_sort_key b) with
  | .gt => false
  | _ => true

/-- The natural comparator as a proposition. -/
def NaturalLe (a b : String) : Prop := natSortLe a b = true

instance : DecidableRel NaturalLe := fun a b => instDecidableEqBool (natSortLe a b) true

/-- `f.lower().endswith('.pdf')` (src/main.py lines 128 and 132). -/
def hasPdfExt (f : String) : Bool :=
  (".pdf".data).isSuffixOf (f.data.map Char.toLower)

/-- `find_pdfs` (src/main.py lines 120-139) on the list of discovered paths:
filter by extension, then `sorted(pdfs, key=natural_sort_key)`.  Python's
`sorted` is a stable sort by the key; it is modelled by the stable
`insertionSort` (any two stable sorts of a total preorder agree). -/
def find_pdfs (files : List String) : List String :=
  List.insertionSort NaturalLe (files.filter hasPdfExt)

/-! ## The per-document loop of `merge_and_process` (src/main.py lines 228-265)

State is `(current_page, entries)`.  Every callee in the loop body catches its
own exceptions, so the loop's `try/except` only triggers when
`merger.append(pdf_path, outline_item=...)` raises; in that case the entry
append and the `current_page` update (both after the `merger.append` call) are
skipped and the loop moves to the next file. -/

def processPdf (hasLangdetect : Bool) (detect : String → Option String)
    (rank : String → String → Nat → Option String) (a : Args)
    (st : Nat × List Entry) (f : PdfFile) : Nat × List Entry :=
  if f.appendRaises then st
  else
    let name_without_ext := pyStem (pyBasename f.path)
    let metadata := get_pdf_metadata f
    -- `metadata["title"] or name_without_ext`
    let bookmark_title :=
      sanitize_bookmark_title
        (if metadata.title = "" then name_without_ext else metadata.title) 100
    let text := extract_text_from_pdf f
    let summary := summarize_text hasLangdetect detect rank text a.num_sentences a.max_chars
    (st.1 + metadata.pages,
     st.2 ++ [{ bookmark := bookmark_title
                page_number := st.1 + 1
                page_count := metadata.pages
                summary := summary
                filename := pyBasename a.output }])

/-- The whole loop, folding `processPdf` over the discovered files. -/
def processAll (hasLangdetect : Bool) (detect : String → Option String)
    (rank : String → String → Nat → Option String) (a : Args)
    (st : Nat × List Entry) (fs : List PdfFile) : Nat × List Entry :=
  fs.foldl (processPdf hasLangdetect detect rank a) st

/-- The index entries created by one run (`entries` after the loop, starting
from `current_page = 0` and an empty list). -/
def runEntries (hasLangdetect : Bool) (detect : String → Option String)
    (rank : String → String → Nat → Option String) (a : Args)
    (fs : List PdfFile) : List Entry :=
  (processAll hasLangdetect detect rank a (0, []) fs).2

/-! ## Index persistence (src/main.py lines 277-300) -/

/-- What loading `summary_index.json` can encounter: no file, a file
`json.load` raises on, a JSON value that is not a list, or a proper list. -/
inductive IndexFileState where
  | missing
  | unparseable
  | notAList
  | ok (es : List Entry)

/-- The load step (src/main.py lines 279-290): every abnormal case degrades to
the empty list without aborting. -/
def loadIndex : IndexFileState → List Entry
  | .missing => []
  | .unparseable => []
  | .notAList => []
  | .ok es => es

/-- The reassignment `entry["filename"] = os.path.basename(args.output)`
performed on every new entry just before persisting (src/main.py
lines 292-294). -/
def reassignFilename (a : Args) (e : Entry) : Entry :=
  { e with filename := pyBasename a.output }

/-- The persisted index after one run:
`combined = existing_entries + entries` (src/main.py line 296), with the
filename reassignment applied to the new entries first. -/
def persistedIndex (hasLangdetect : Bool) (detect : String → Option String)
    (rank : String → String → Nat → Option String) (a : Args)
    (fs : List PdfFile) (st : IndexFileState) : List Entry :=
  loadIndex st ++ (runEntries hasLangdetect detect rank a fs).map (reassignFilename a)

/-! ## Writing the merged output (src/main.py lines 267-275) -/

/-- Outcome of `merger.write(args.output)`: either the whole merged document is
written, or an exception is raised after some bytes were already streamed to
the file opened at the output path. -/
inductive PdfWriteOutcome where
  | ok
  | failsAfterWriting (writtenSoFar : String)

/-- Replace (or create) the file at path `p` in an association-list file
system. -/
def fsSet (fs : List (String × String)) (p v : String) : List (String × String) :=
  (p, v) :: fs.filter (fun kv => !(kv.1 == p))

/-- Models `try: merger.write(args.output) except: sys.exit(1)` (src/main.py
lines 267-275).  The merged document is streamed directly to the final output
path — no temporary location is involved — so on an exception the bytes
written so far remain there; the returned flag is `true` when the run
terminates fatally via `sys.exit(1)`. -/
def writeMergedPdf (fs : List (String × String)) (output merged : String) :
    PdfWriteOutcome → List (String × String) × Bool
  | .ok => (fsSet fs output merged, false)
  | .failsAfterWriting w => (fsSet fs output w, true)

/-! ## Files written by a successful run -/

/-- `out_dir = os.path.dirname(args.output) or os.getcwd()` (src/main.py
line 224). -/
def outDir (cwd output : String) : String :=
  if pyDirname output = "" then cwd else pyDirname output

/-- `idx_path = os.path.join(out_dir, 'summary_index.json')` (src/main.py
line 278). -/
def idxPath (cwd output : String) : String :=
  pyJoin (outDir cwd output) "summary_index.json"

/-- The complete list of paths a successful run opens for writing: the merged
PDF (line 269) and the JSON index (line 298).  No other file is written
anywhere in `merge_and_process`. -/
def runWrittenPaths (cwd output : String) : List String :=
  [output, idxPath cwd output]

/-! ## Properties of the natural comparator -/

theorem natCmp_eq_lt {a b : Nat} : natCmp a b = .lt ↔ a < b := by
  unfold natCmp
  split
  · simp [*]
  · split <;> simp <;> omega

theorem natCmp_eq_eq {a b : Nat} : natCmp a b = .eq ↔ a = b := by
  unfold natCmp
  split
  · simp; omega
  · split <;> simp <;> omega

theorem natCmp_swap (a b : Nat) : (natCmp a b).swap = natCmp b a := by
  unfold natCmp
  rcases Nat.lt_trichotomy a b with h | h | h
  · simp [h, Nat.lt_asymm h, Ordering.swap]
  · simp [h, Nat.lt_irrefl, Ordering.swap]
  · simp [h, Nat.lt_asymm h, Ordering.swap]

theorem charCmp_swap (a b : Char) : (charCmp a b).swap = charCmp b a :=
  natCmp_swap a.toNat b.toNat

theorem charCmp_eq {a b : Char} (h : charCmp a b = .eq) : a = b :=
  Char.ext (UInt32.ext (natCmp_eq_eq.mp h))

theorem charCmp_lt_trans {a b c : Char} (h1 : charCmp a b = .lt)
    (h2 : charCmp b c = .lt) : charCmp a c = .lt :=
  natCmp_eq_lt.mpr (Nat.lt_trans (natCmp_eq_lt.mp h1) (natCmp_eq_lt.mp h2))

theorem listCmp_swap (c : α → α → Ordering) (hsw : ∀ a b, (c a b).swap = c b a) :
    ∀ as bs, (listCmp c as bs).swap = listCmp c bs as := by
  intro as
  induction as with
  | nil => intro bs; cases bs <;> rfl
  | cons a as ih =>
    intro bs
    cases bs with
    | nil => rfl
    | cons b bs =>
      simp only [listCmp]
      cases h : c a b with
      | eq =>
        have hba : c b a = .eq := by rw [← hsw a b, h]; rfl
        simp [hba, ih bs]
      | lt =>
        have hba : c b a = .gt := by rw [← hsw a b, h]; rfl
        simp [hba, Ordering.swap]
      | gt =>
        have hba : c b a = .lt := by rw [← hsw a b, h]; rfl
        simp [hba, Ordering.swap]

theorem cmp_refl_of_swap (c : α → α → Ordering) (hsw : ∀ a b, (c a b).swap = c b a)
    (a : α) : c a a = .eq := by
  have h := hsw a a
  cases h2 : c a a <;> rw [h2] at h <;> simp [Ordering.swap] at h

theorem listCmp_eq_of_eq (c : α → α → Ordering) (heq : ∀ a b, c a b = .eq → a = b) :
    ∀ as bs, listCmp c as bs = .eq → as = bs := by
  intro as
  induction as with
  | nil => intro bs h; cases bs with
    | nil => rfl
    | cons b bs => simp [listCmp] at h
  | cons a as ih =>
    intro bs h
    cases bs with
    | nil => simp [listCmp] at h
    | cons b bs =>
      simp only [listCmp] at h
      cases h2 : c a b <;> rw [h2] at h
      · exact absurd h (by simp)
      · rw [heq a b h2, ih bs h]
      · exact absurd h (by simp)

theorem listCmp_cons_lt {c : α → α → Ordering} {a b : α} {as bs : List α}
    (h : c a b = .lt) : listCmp c (a :: as) (b :: bs) = .lt := by
  simp only [listCmp, h]

theorem listCmp_cons_gt {c : α → α → Ordering} {a b : α} {as bs : List α}
    (h : c a b = .gt) : listCmp c (a :: as) (b :: bs) = .gt := by
  simp only [listCmp, h]

theorem listCmp_cons_eq {c : α → α → Ordering} {a b : α} {as bs : List α}
    (h : c a b = .eq) : listCmp c (a :: as) (b :: bs) = listCmp c as bs := by
  simp only [listCmp, h]

theorem listCmp_lt_trans (c : α → α → Ordering)
    (heq : ∀ a b, c a b = .eq → a = b)
    (hlt : ∀ a b d, c a b = .lt → c b d = .lt → c a d = .lt) :
    ∀ as bs cs, listCmp c as bs = .lt → listCmp c bs cs = .lt →
      listCmp c as cs = .lt := by
  intro as
  induction as with
  | nil =>
    intro bs cs h1 h2
    cases bs with
    | nil => exact h2
    | cons b bs =>
      cases cs with
      | nil => simp [listCmp] at h2
      | cons d ds => rfl
  | cons a as ih =>
    intro bs cs h1 h2
    cases bs with
    | nil => simp [listCmp] at h1
    | cons b bs =>
      cases cs with
      | nil => simp [listCmp] at h2
      | cons d ds =>
        cases hab : c a b with
        | lt =>
          cases hbd : c b d with
          | lt => rw [listCmp_cons_lt (hlt a b d hab hbd)]
          | eq =>
            obtain rfl : b = d := heq b d hbd
            rw [listCmp_cons_lt hab]
          | gt =>
            rw [listCmp_cons_gt hbd] at h2
            exact Ordering.noConfusion h2
        | eq =>
          obtain rfl : a = b := heq a b hab
          rw [listCmp_cons_eq hab] at h1
          cases hbd : c a d with
          | lt => rw [listCmp_cons_lt hbd]
          | eq =>
            rw [listCmp_cons_eq hbd] at h2
            rw [listCmp_cons_eq hbd]
            exact ih bs ds h1 h2
          | gt =>
            rw [listCmp_cons_gt hbd] at h2
            exact Ordering.noConfusion h2
        | gt =>
          rw [listCmp_cons_gt hab] at h1
          exact Ordering.noConfusion h1

theorem cmp_le_trans (c : α → α → Ordering)
    (heq : ∀ a b, c a b = .eq → a = b)
    (hlt : ∀ a b d, c a b = .lt → c b d = .lt → c a d = .lt)
    {x y z : α} (h1 : c x y ≠ .gt) (h2 : c y z ≠ .gt) : c x z ≠ .gt := by
  intro hgt
  cases hxy : c x y with
  | gt => exact h1 hxy
  | eq =>
    obtain rfl := heq x y hxy
    exact h2 hgt
  | lt =>
    cases hyz : c y z with
    | gt => exact h2 hyz
    | eq =>
      obtain rfl := heq y z hyz
      exact h1 hgt
    | lt =>
      rw [hlt x y z hxy hyz] at hgt
      exact Ordering.noConfusion hgt

theorem cmp_le_total (c : α → α → Ordering) (hsw : ∀ a b, (c a b).swap = c b a)
    (x y : α) : c x y ≠ .gt ∨ c y x ≠ .gt := by
  by_cases h : c x y = .gt
  · right
    rw [← hsw x y, h]
    simp [Ordering.swap]
  · left
    exact h

theorem elemCmp_swap (a b : NatKeyElem) : (elemCmp a b).swap = elemCmp b a := by
  cases a with
  | num n =>
    cases b with
    | num m => exact natCmp_swap n m
    | str t => rfl
  | str s =>
    cases b with
    | num m => rfl
    | str t => exact listCmp_swap charCmp charCmp_swap s t

theorem elemCmp_eq {a b : NatKeyElem} (h : elemCmp a b = .eq) : a = b := by
  cases a with
  | num n =>
    cases b with
    | num m => exact congrArg NatKeyElem.num (natCmp_eq_eq.mp h)
    | str t => exact Ordering.noConfusion h
  | str s =>
    cases b with
    | num m => exact Ordering.noConfusion h
    | str t =>
      exact congrArg NatKeyElem.str
        (listCmp_eq_of_eq charCmp (fun x y hxy => charCmp_eq hxy) s t h)

theorem elemCmp_lt_trans {a b d : NatKeyElem} (h1 : elemCmp a b = .lt)
    (h2 : elemCmp b d = .lt) : elemCmp a d = .lt := by
  cases a with
  | num n =>
    cases b with
    | num m =>
      cases d with
      | num k =>
        exact natCmp_eq_lt.mpr (Nat.lt_trans (natCmp_eq_lt.mp h1) (natCmp_eq_lt.mp h2))
      | str u => rfl
    | str t =>
      cases d with
      | num k => exact Ordering.noConfusion h2
      | str u => rfl
  | str s =>
    cases b with
    | num m => exact Ordering.noConfusion h1
    | str t =>
      cases d with
      | num k => exact Ordering.noConfusion h2
      | str u =>
        exact listCmp_lt_trans charCmp (fun x y hxy => charCmp_eq hxy)
          (fun x y z hx hy => charCmp_lt_trans hx hy) s t u h1 h2

theorem keyCmp_le_trans {x y z : List NatKeyElem}
    (h1 : listCmp elemCmp x y ≠ .gt) (h2 : listCmp elemCmp y z ≠ .gt) :
    listCmp elemCmp x z ≠ .gt :=
  cmp_le_trans (listCmp elemCmp)
    (listCmp_eq_of_eq elemCmp (fun _ _ h => elemCmp_eq h))
    (fun as bs cs ha hb => listCmp_lt_trans elemCmp (fun _ _ h => elemCmp_eq h)
      (fun _ _ _ ha' hb' => elemCmp_lt_trans ha' hb') as bs cs ha hb)
    h1 h2

theorem keyCmp_le_total (x y : List NatKeyElem) :
    listCmp elemCmp x y ≠ .gt ∨ listCmp elemCmp y x ≠ .gt :=
  cmp_le_total (listCmp elemCmp) (listCmp_swap elemCmp elemCmp_swap) x y

theorem natSortLe_iff {a b : String} :
    natSortLe a b = true ↔
      listCmp elemCmp (natural_sort_key a) (natural_sort_key b) ≠ .gt := by
  unfold natSortLe
  cases h : listCmp elemCmp (natural_sort_key a) (natural_sort_key b) <;> simp

instance : IsTrans String NaturalLe :=
  ⟨fun _ _ _ h1 h2 =>
    natSortLe_iff.mpr (keyCmp_le_trans (natSortLe_iff.mp h1) (natSortLe_iff.mp h2))⟩

instance : IsTotal String NaturalLe :=
  ⟨fun a b =>
    (keyCmp_le_total (natural_sort_key a) (natural_sort_key b)).imp
      natSortLe_iff.mpr natSortLe_iff.mpr⟩

/-! ## Offset bookkeeping -/

/-- The entry built for file `f` when the running page offset is `p`
(the dictionary literal at src/main.py lines 253-259). -/
def entryFor (hasLangdetect : Bool) (detect : String → Option String)
    (rank : String → String → Nat → Option String) (a : Args)
    (p : Nat) (f : PdfFile) : Entry :=
  { bookmark :=
      sanitize_bookmark_title
        (if (get_pdf_metadata f).title = "" then pyStem (pyBasename f.path)
         else (get_pdf_metadata f).title) 100
    page_number := p + 1
    page_count := (get_pdf_metadata f).pages
    summary := summarize_text hasLangdetect detect rank (extract_text_from_pdf f)
      a.num_sentences a.max_chars
    filename := pyBasename a.output }

theorem processPdf_eq (hl : Bool) (d : String → Option String)
    (r : String → String → Nat → Option String) (a : Args)
    (p : Nat) (es : List Entry) (f : PdfFile) :
    processPdf hl d r a (p, es) f =
      if f.appendRaises then (p, es)
      else (p + (get_pdf_metadata f).pages, es ++ [entryFor hl d r a p f]) := by
  by_cases hr : f.appendRaises <;> simp [processPdf, entryFor, hr]

/-- The loop's effect on the accumulated entries only depends on the starting
offset: starting with accumulated entries `es` just prepends `es`. -/
theorem processAll_shift (hl : Bool) (d : String → Option String)
    (r : String → String → Nat → Option String) (a : Args) :
    ∀ (fs : List PdfFile) (p : Nat) (es : List Entry),
      processAll hl d r a (p, es) fs =
        ((processAll hl d r a (p, []) fs).1,
         es ++ (processAll hl d r a (p, []) fs).2) := by
  intro fs
  induction fs with
  | nil =>
    intro p es
    simp [processAll]
  | cons f fs ih =>
    intro p es
    have key : ∀ (q : Nat) (es0 : List Entry),
        processAll hl d r a (q, es0) (f :: fs) =
          processAll hl d r a (processPdf hl d r a (q, es0) f) fs :=
      fun _ _ => rfl
    rw [key p es, key p [], processPdf_eq, processPdf_eq]
    by_cases hr : f.appendRaises = true
    · rw [if_pos hr, if_pos hr]
      exact ih p es
    · rw [if_neg hr, if_neg hr]
      simp only [List.nil_append]
      rw [ih (p + (get_pdf_metadata f).pages) (es ++ [entryFor hl d r a p f]),
          ih (p + (get_pdf_metadata f).pages) [entryFor hl d r a p f]]
      simp

/-- The chained-offset property: starting from page offset `p`, every entry
starts one page after the pages accumulated before it. -/
def chainedFrom (p : Nat) : List Entry → Prop
  | [] => True
  | e :: es => e.page_number = p + 1 ∧ chainedFrom (p + e.page_count) es

theorem chainedFrom_processAll (hl : Bool) (d : String → Option String)
    (r : String → String → Nat → Option String) (a : Args) :
    ∀ (fs : List PdfFile) (p : Nat),
      chainedFrom p (processAll hl d r a (p, []) fs).2 := by
  intro fs
  induction fs with
  | nil =>
    intro p
    trivial
  | cons f fs ih =>
    intro p
    show chainedFrom p (processAll hl d r a (processPdf hl d r a (p, []) f) fs).2
    rw [processPdf_eq]
    by_cases hr : f.appendRaises = true
    · rw [if_pos hr]
      exact ih p
    · rw [if_neg hr]
      simp only [List.nil_append]
      rw [processAll_shift hl d r a fs (p + (get_pdf_metadata f).pages)
            [entryFor hl d r a p f]]
      exact ⟨rfl, ih (p + (get_pdf_metadata f).pages)⟩

theorem chainedFrom_get :
    ∀ {es : List Entry} {p : Nat}, chainedFrom p es →
      ∀ i (h : i + 1 < es.length),
        (es.get ⟨i + 1, h⟩).page_number =
          (es.get ⟨i, Nat.lt_of_succ_lt h⟩).page_number +
          (es.get ⟨i, Nat.lt_of_succ_lt h⟩).page_count := by
  intro es
  induction es with
  | nil =>
    intro p _ i h
    exact absurd h (by simp)
  | cons e es ih =>
    intro p hch i h
    obtain ⟨he, htail⟩ := hch
    cases i with
    | zero =>
      cases es with
      | nil => exact absurd h (by simp)
      | cons e2 es2 =>
        obtain ⟨he2, _⟩ := htail
        show e2.page_number = e.page_number + e.page_count
        rw [he, he2]
        omega
    | succ j =>
      exact ih htail j (Nat.lt_of_succ_lt_succ h)

theorem chainedFrom_head {p : Nat} {es : List Entry} (h : chainedFrom p es) :
    ∀ e, es.head? = some e → e.page_number = p + 1 := by
  cases es with
  | nil =>
    intro e he
    exact absurd he (by simp)
  | cons a as =>
    intro e he
    obtain rfl : a = e := by simpa using he
    exact h.1

/-- Every entry the loop appends carries the output file's basename as its
`filename`. -/
theorem processAll_filename (hl : Bool) (d : String → Option String)
    (r : String → String → Nat → Option String) (a : Args) :
    ∀ (fs : List PdfFile) (st : Nat × List Entry),
      (∀ e ∈ st.2, e.filename = pyBasename a.output) →
      ∀ e ∈ (processAll hl d r a st fs).2, e.filename = pyBasename a.output := by
  intro fs
  induction fs with
  | nil =>
    intro st h
    exact h
  | cons f fs ih =>
    intro st h
    obtain ⟨p, es⟩ := st
    show ∀ e ∈ (processAll hl d r a (processPdf hl d r a (p, es) f) fs).2, _
    apply ih
    rw [processPdf_eq]
    by_cases hr : f.appendRaises = true
    · rw [if_pos hr]
      exact h
    · rw [if_neg hr]
      intro e he
      rcases List.mem_append.mp he with h1 | h2
      · exact h e h1
      · obtain rfl : e = entryFor hl d r a p f := by simpa using h2
        rfl

/-! ## Helper facts about failed extraction -/

theorem get_pdf_metadata_failed {f : PdfFile} (h : extractionFailed f = true) :
    get_pdf_metadata f = ⟨"", 0⟩ := by
  unfold extractionFailed at h
  unfold get_pdf_metadata
  cases hr : f.readable with
  | false => rfl
  | true =>
    rw [hr] at h
    simp only [Bool.not_true, Bool.false_or] at h
    simp [h]

theorem extract_text_failed {f : PdfFile} (h : extractionFailed f = true) :
    extract_text_from_pdf f = "" := by
  unfold extractionFailed at h
  unfold extract_text_from_pdf
  cases hr : f.readable with
  | false => rfl
  | true =>
    rw [hr] at h
    simp only [Bool.not_true, Bool.false_or] at h
    simp [h]

/-! ## Concrete instantiations used for witnesses -/

/-- The abstract language detector in the unavailable/raising configuration. -/
def noDetect : String → Option String := fun _ => none

/-- An abstract TextRank call that always raises. -/
def noRank : String → String → Nat → Option String := fun _ _ _ => none

/-- The default configuration of `parse_args` (src/main.py lines 303-314). -/
def exArgs : Args := ⟨"output/merged.pdf", 3, 3000⟩

/-- A readable three-page document. -/
def exDocA : PdfFile := ⟨"input/a.pdf", true, false, true, 3, "", ["A."], false⟩

/-- An encrypted, undecryptable document: its extraction fails and it
contributes zero pages. -/
def exDocB : PdfFile := ⟨"input/b.pdf", true, true, false, 7, "", ["B."], false⟩

/-- A readable five-page document. -/
def exDocC : PdfFile := ⟨"input/c.pdf", true, false, true, 5, "", ["C."], false⟩

/-- `report1.pdf` of the end-to-end scenario: two pages of extractable text. -/
def report1 : PdfFile :=
  ⟨"input/report1.pdf", true, false, true, 2, "", ["Alpha. Beta.", "Gamma."], false⟩

/-- `report2.pdf` of the end-to-end scenario: one page, encrypted,
undecryptable with the empty password. -/
def report2 : PdfFile := ⟨"input/report2.pdf", true, true, false, 1, "", [""], false⟩

/-! ## Claims -/

/-- Claim C1: in every run, the first index entry created starts at page 1;
for consecutive entries, `startPage[i+1] = startPage[i] + pageCount[i]`; and a
source whose extraction failed contributes its own entry with page count 0 and
the running total as its start page, advancing the offset by 0. -/
theorem C1_offset_invariant (hl : Bool) (d : String → Option String)
    (r : String → String → Nat → Option String) (a : Args) (fs : List PdfFile) :
    (∀ e, (runEntries hl d r a fs).head? = some e → e.page_number = 1) ∧
    (∀ i (h : i + 1 < (runEntries hl d r a fs).length),
      ((runEntries hl d r a fs).get ⟨i + 1, h⟩).page_number =
        ((runEntries hl d r a fs).get ⟨i, Nat.lt_of_succ_lt h⟩).page_number +
        ((runEntries hl d r a fs).get ⟨i, Nat.lt_of_succ_lt h⟩).page_count) ∧
    (∀ (st : Nat × List Entry) (f : PdfFile), extractionFailed f = true →
      f.appendRaises = false →
      processPdf hl d r a st f =
        (st.1, st.2 ++
          [{ bookmark := sanitize_bookmark_title (pyStem (pyBasename f.path)) 100
             page_number := st.1 + 1
             page_count := 0
             summary := ""
             filename := pyBasename a.output }])) := by
  refine ⟨?_, ?_, ?_⟩
  · intro e he
    exact chainedFrom_head (chainedFrom_processAll hl d r a fs 0) e he
  · intro i h
    exact chainedFrom_get (chainedFrom_processAll hl d r a fs 0) i h
  · intro st f hx ha
    obtain ⟨p, es⟩ := st
    rw [processPdf_eq, if_neg (by simp [ha])]
    unfold entryFor
    rw [get_pdf_metadata_failed hx, extract_text_failed hx]
    rfl

/-- Witness for C1: page counts `[3, 0, 5]` (the zero caused by a failed
extraction) give start pages `[1, 4, 4]`, and the invariant applies at the
concrete pair of entries 1 and 2. -/
theorem C1_offset_invariant_witness :
    (runEntries false noDetect noRank exArgs [exDocA, exDocB, exDocC]).map
        Entry.page_number = [1, 4, 4] ∧
    ((runEntries false noDetect noRank exArgs [exDocA, exDocB, exDocC]).get
        ⟨2, by decide⟩).page_number =
      ((runEntries false noDetect noRank exArgs [exDocA, exDocB, exDocC]).get
        ⟨1, Nat.lt_of_succ_lt (by decide)⟩).page_number +
      ((runEntries false noDetect noRank exArgs [exDocA, exDocB, exDocC]).get
        ⟨1, Nat.lt_of_succ_lt (by decide)⟩).page_count :=
  ⟨by decide,
    (C1_offset_invariant false noDetect noRank exArgs [exDocA, exDocB, exDocC]).2.1
      1 (by decide)⟩

/-- Claim C2: a document whose extraction fails (encrypted and undecryptable
with the empty password, corrupt, unreadable) still contributes an index entry
with empty summary and page count 0, the loop continuing afterwards; in the
two-report scenario the persisted index ends the run with two entries, the
second being `{bookmark := "report2", startPage := 3, pageCount := 0,
summary := ""}`. -/
theorem C2_failed_extraction_entry (hl : Bool) (d : String → Option String)
    (r : String → String → Nat → Option String) (a : Args)
    (st : Nat × List Entry) (f : PdfFile)
    (hx : extractionFailed f = true) (ha : f.appendRaises = false) :
    (processPdf hl d r a st f =
      (st.1, st.2 ++
        [{ bookmark := sanitize_bookmark_title (pyStem (pyBasename f.path)) 100
           page_number := st.1 + 1
           page_count := 0
           summary := ""
           filename := pyBasename a.output }])) ∧
    (∀ rest : List PdfFile,
      processAll hl d r a st (f :: rest) =
        processAll hl d r a (processPdf hl d r a st f) rest) ∧
    (persistedIndex hl d r exArgs [report1, report2] .missing).length = 2 ∧
    (persistedIndex hl d r exArgs [report1, report2] .missing).getLast? =
      some ⟨"report2", 3, 0, "", "merged.pdf"⟩ := by
  refine ⟨?_, fun rest => rfl, rfl, rfl⟩
  obtain ⟨p, es⟩ := st
  rw [processPdf_eq, if_neg (by simp [ha])]
  unfold entryFor
  rw [get_pdf_metadata_failed hx, extract_text_failed hx]
  rfl

/-- Witness for C2: `report2` is encrypted and undecryptable; processed at
offset 2 it yields exactly the entry `{bookmark := "report2", startPage := 3,
pageCount := 0, summary := ""}`. -/
theorem C2_failed_extraction_entry_witness :
    (processPdf false noDetect noRank exArgs (2, []) report2).2.map
      Entry.page_count = [0] ∧
    (processPdf false noDetect noRank exArgs (2, []) report2).2.map
      Entry.page_number = [3] ∧
    (processPdf false noDetect noRank exArgs (2, []) report2).2.map
      Entry.summary = [""] := by
  rw [(C2_failed_extraction_entry false noDetect noRank exArgs (2, []) report2
        (by decide) (by decide)).1]
  refine ⟨rfl, rfl, rfl⟩

/-- Claim C4: merging a loaded index of N entries with the M entries of a run
appends the new entries after the N original ones, which stay unmodified, for
a total of exactly N + M; a missing, unparseable or non-list index file loads
as the empty index without aborting. -/
theorem C4_index_merge_append (hl : Bool) (d : String → Option String)
    (r : String → String → Nat → Option String) (a : Args)
    (fs : List PdfFile) (st : IndexFileState) :
    (persistedIndex hl d r a fs st).length =
      (loadIndex st).length + (runEntries hl d r a fs).length ∧
    (persistedIndex hl d r a fs st).take (loadIndex st).length = loadIndex st ∧
    (persistedIndex hl d r a fs st).drop (loadIndex st).length =
      (runEntries hl d r a fs).map (reassignFilename a) ∧
    loadIndex .missing = [] ∧
    loadIndex .unparseable = [] ∧
    loadIndex .notAList = [] := by
  refine ⟨?_, ?_, ?_, rfl, rfl, rfl⟩
  · simp [persistedIndex]
  · exact List.take_left _ _
  · exact List.drop_left _ _

/-- Claim C10: every entry of a run carries `filename` equal to the basename
of the output path, both as created in the loop and after the reassignment
done just before persisting; consequently all entries of one run share the
same `filename`. -/
theorem C10_filename_is_output_basename (hl : Bool) (d : String → Option String)
    (r : String → String → Nat → Option String) (a : Args) (fs : List PdfFile) :
    (∀ e ∈ runEntries hl d r a fs, e.filename = pyBasename a.output) ∧
    (∀ e ∈ (runEntries hl d r a fs).map (reassignFilename a),
      e.filename = pyBasename a.output) ∧
    (∀ e1 ∈ runEntries hl d r a fs, ∀ e2 ∈ runEntries hl d r a fs,
      e1.filename = e2.filename) := by
  have base := processAll_filename hl d r a fs (0, [])
    (by intro e he; exact absurd he (List.not_mem_nil e))
  refine ⟨base, ?_, ?_⟩
  · intro e he
    rcases List.mem_map.mp he with ⟨e0, _, rfl⟩
    rfl
  · intro e1 h1 e2 h2
    rw [base e1 h1, base e2 h2]

/-- Witness for C10: in a concrete two-document run both entries carry the
output basename `merged.pdf`. -/
theorem C10_filename_is_output_basename_witness :
    ((runEntries false noDetect noRank exArgs [exDocA, exDocB]).get
      ⟨0, by decide⟩).filename = "merged.pdf" := by
  have h := (C10_filename_is_output_basename false noDetect noRank exArgs
    [exDocA, exDocB]).1
  rw [h _ (List.get_mem _ _ _)]
  rfl

/-- Claim C3 (amended): the locator keeps exactly the `.pdf`-matching paths and
returns them ordered by the natural comparator (digit runs numerically,
non-digit runs case-insensitively); in particular `["a2.pdf", "a10.pdf",
"a1.pdf"]` comes back as `["a1.pdf", "a2.pdf", "a10.pdf"]`.  Paths with other
extensions, such as the `.x` names of the original claim, are filtered out. -/
theorem C3_natural_order (files : List String) :
    (find_pdfs files).Perm (files.filter hasPdfExt) ∧
    List.Sorted NaturalLe (find_pdfs files) ∧
    find_pdfs ["a2.pdf", "a10.pdf", "a1.pdf"] = ["a1.pdf", "a2.pdf", "a10.pdf"] :=
  ⟨List.perm_insertionSort NaturalLe _,
   List.sorted_insertionSort NaturalLe _,
   by decide⟩

/-- Counterexample to claim C3 as stated: on the inputs `["a2.x", "a10.x",
"a1.x"]` the locator returns the empty list — their extension is not `.pdf` —
and not `["a1.x", "a2.x", "a10.x"]`. -/
theorem C3_counterexample :
    find_pdfs ["a2.x", "a10.x", "a1.x"] = [] ∧
    find_pdfs ["a2.x", "a10.x", "a1.x"] ≠ ["a1.x", "a2.x", "a10.x"] := by
  refine ⟨by decide, by decide⟩

/-! ## File-system lemmas for the output write -/

theorem lookup_filter_ne {p q : String} (h : q ≠ p) :
    ∀ fs : List (String × String),
      (fs.filter (fun kv => !(kv.1 == p))).lookup q = fs.lookup q := by
  intro fs
  induction fs with
  | nil => rfl
  | cons kv fs ih =>
    obtain ⟨k, v⟩ := kv
    by_cases hk : k = p
    · subst hk
      have hq : (q == k) = false := beq_eq_false_iff_ne.mpr h
      simp [List.filter, List.lookup, hq, ih]
    · have hkp : (k == p) = false := beq_eq_false_iff_ne.mpr hk
      by_cases hq : q = k
      · subst hq
        simp [List.filter, List.lookup, hkp]
      · have hqk : (q == k) = false := beq_eq_false_iff_ne.mpr hq
        simp [List.filter, List.lookup, hkp, hqk, ih]

theorem lookup_fsSet_self (fs : List (String × String)) (p v : String) :
    (fsSet fs p v).lookup p = some v := by
  simp [fsSet, List.lookup]

theorem lookup_fsSet_other (fs : List (String × String)) (p v q : String)
    (h : q ≠ p) : (fsSet fs p v).lookup q = fs.lookup q := by
  have hqp : (q == p) = false := by simp [h]
  simp only [fsSet, List.lookup, hqp]
  exact lookup_filter_ne h fs

/-- Counterexample to claim C5 as stated: a run whose `merger.write` raises
after streaming part of the document terminates fatally but leaves the partial
bytes at the final output path — the write is not atomic. -/
theorem C5_counterexample :
    (writeMergedPdf [] "output/merged.pdf" "MERGEDPDF"
      (.failsAfterWriting "MER")).2 = true ∧
    (writeMergedPdf [] "output/merged.pdf" "MERGEDPDF"
      (.failsAfterWriting "MER")).1.lookup "output/merged.pdf" = some "MER" ∧
    ("MER" : String) ≠ "MERGEDPDF" ∧ ("MER" : String) ≠ "" := by
  refine ⟨rfl, ?_, by decide, by decide⟩
  exact lookup_fsSet_self [] "output/merged.pdf" "MER"

/-- Claim C5 (amended): the combined output is written directly to the final
path — no path other than `args.output` is touched, so no temporary-location
scheme is in place; a write failure is fatal for the run (`sys.exit(1)`), but
the bytes already streamed remain at the output path. -/
theorem C5_write_goes_directly_to_output (fs : List (String × String))
    (output merged w p : String) (hp : p ≠ output) :
    (writeMergedPdf fs output merged .ok).2 = false ∧
    (writeMergedPdf fs output merged .ok).1.lookup output = some merged ∧
    (writeMergedPdf fs output merged (.failsAfterWriting w)).2 = true ∧
    (writeMergedPdf fs output merged (.failsAfterWriting w)).1.lookup output =
      some w ∧
    (writeMergedPdf fs output merged .ok).1.lookup p = fs.lookup p ∧
    (writeMergedPdf fs output merged (.failsAfterWriting w)).1.lookup p =
      fs.lookup p := by
  refine ⟨rfl, lookup_fsSet_self fs output merged, rfl,
    lookup_fsSet_self fs output w, ?_, ?_⟩
  · exact lookup_fsSet_other fs output merged p hp
  · exact lookup_fsSet_other fs output w p hp

/-- Witness for the amended C5: a concrete failing write leaves the other file
untouched and the partial bytes at the output path. -/
theorem C5_write_goes_directly_to_output_witness :
    (writeMergedPdf [("keep.txt", "old")] "output/merged.pdf" "MERGEDPDF"
      (.failsAfterWriting "MER")).1.lookup "keep.txt" =
      [("keep.txt", "old")].lookup "keep.txt" ∧
    (writeMergedPdf [("keep.txt", "old")] "output/merged.pdf" "MERGEDPDF"
      (.failsAfterWriting "MER")).1.lookup "output/merged.pdf" = some "MER" :=
  ⟨(C5_write_goes_directly_to_output [("keep.txt", "old")] "output/merged.pdf"
      "MERGEDPDF" "MER" "keep.txt" (by decide)).2.2.2.2.2,
   (C5_write_goes_directly_to_output [("keep.txt", "old")] "output/merged.pdf"
      "MERGEDPDF" "MER" "keep.txt" (by decide)).2.2.2.1⟩

/-- Counterexample to claim C6 as stated: with maximum length 1 (the claim
quantifies over every maximum length), the Python slice `title[:1-3]` counts
from the end, and sanitizing `"abcd"` yields `"ab..."` of length 5 > 1. -/
theorem C6_counterexample :
    sanitize_bookmark_title "abcd" 1 = "ab..." ∧
    (sanitize_bookmark_title "abcd" 1).length = 5 ∧
    ¬((sanitize_bookmark_title "abcd" 1).length ≤ 1) :=
  ⟨by decide, by decide, by decide⟩

/-- Claim C6 (amended, maximum length at least 3): the sanitizer replaces each
of `\ / * ? : " < > |` by a hyphen (the result carries no forbidden
character), keeps the replaced string when it fits, and otherwise truncates it
to `max-3` characters and appends `"..."`, so the result never exceeds `max`
characters. -/
theorem C6_sanitize_bounded (title : String) (max_length : Nat)
    (h3 : 3 ≤ max_length) :
    (sanitize_bookmark_title title max_length).length ≤ max_length ∧
    (∀ c ∈ (sanitize_bookmark_title title max_length).data,
      forbiddenChar c = false) ∧
    (title.length ≤ max_length →
      sanitize_bookmark_title title max_length =
        ⟨title.data.map (fun c => if forbiddenChar c then '-' else c)⟩) ∧
    (max_length < title.length →
      sanitize_bookmark_title title max_length =
        ⟨(title.data.map (fun c => if forbiddenChar c then '-' else c)).take
          (max_length - 3) ++ "...".data⟩ ∧
      (sanitize_bookmark_title title max_length).length = max_length) := by
  have hslice :
      pySlice (title.data.map (fun c => if forbiddenChar c then '-' else c))
        ((max_length : Int) - 3) =
      (title.data.map (fun c => if forbiddenChar c then '-' else c)).take
        (max_length - 3) := by
    unfold pySlice
    rw [if_neg (by omega)]
    congr 1
    omega
  have hlen :
      (title.data.map (fun c => if forbiddenChar c then '-' else c)).length =
        title.length := by
    show (title.data.map (fun c => if forbiddenChar c then '-' else c)).length =
      title.data.length
    exact List.length_map _ _
  have hchar : sanitize_bookmark_title title max_length =
      if max_length <
          (title.data.map (fun c => if forbiddenChar c then '-' else c)).length
      then ⟨(title.data.map (fun c => if forbiddenChar c then '-' else c)).take
              (max_length - 3) ++ "...".data⟩
      else ⟨title.data.map (fun c => if forbiddenChar c then '-' else c)⟩ := by
    simp only [sanitize_bookmark_title]
    rw [hslice]
  have hforb : ∀ c ∈ title.data.map (fun c => if forbiddenChar c then '-' else c),
      forbiddenChar c = false := by
    intro c hc
    rcases List.mem_map.mp hc with ⟨c0, _, rfl⟩
    by_cases hf : forbiddenChar c0 = true
    · rw [if_pos hf]
      decide
    · rw [if_neg hf]
      simpa using hf
  by_cases hcase : max_length < title.length
  · have hc' : max_length <
        (title.data.map (fun c => if forbiddenChar c then '-' else c)).length := by
      rw [hlen]
      exact hcase
    have htrunclen :
        ((title.data.map (fun c => if forbiddenChar c then '-' else c)).take
          (max_length - 3) ++ "...".data).length = max_length := by
      rw [List.length_append, List.length_take, hlen]
      have h3' : ("...".data).length = 3 := rfl
      rw [h3']
      omega
    rw [hchar, if_pos hc']
    refine ⟨Nat.le_of_eq htrunclen, ?_, ?_, ?_⟩
    · intro c hc
      rcases List.mem_append.mp hc with h | h
      · exact hforb c (List.take_subset _ _ h)
      · have hdot : c = '.' := by simpa using h
        rw [hdot]
        decide
    · intro h
      exact absurd h (by omega)
    · intro _
      exact ⟨rfl, htrunclen⟩
  · rw [hchar, if_neg (by rw [hlen]; omega)]
    refine ⟨?_, hforb, fun _ => rfl, fun h => absurd h (by omega)⟩
    show (title.data.map (fun c => if forbiddenChar c then '-' else c)).length ≤
      max_length
    rw [hlen]
    omega

/-- Witness for the amended C6: sanitizing `"a/b:c"` with the default maximum
100 keeps it within the bound and replaces the forbidden characters. -/
theorem C6_sanitize_bounded_witness :
    (sanitize_bookmark_title "a/b:c" 100).length ≤ 100 ∧
    sanitize_bookmark_title "a/b:c" 100 = "a-b-c" :=
  ⟨(C6_sanitize_bounded "a/b:c" 100 (by decide)).1, by decide⟩

/-- Claim C7: the summarizer returns the empty string on empty input, and when
the ranking call fails it does not raise but falls back to the first 200
characters of the (possibly truncated) input with the truncation marker
`"..."` appended (so at most 203 characters, inside the 200-300 band). -/
theorem C7_ranking_failure_fallback (hl : Bool) (d : String → Option String)
    (r : String → String → Nat → Option String) (text : String) (n : Nat)
    (mc : Int)
    (hfail : r (truncateForSummary text mc)
      (get_tokenizer_for_language hl d (truncateForSummary text mc)) n = none) :
    summarize_text hl d r "" n mc = "" ∧
    (text ≠ "" →
      summarize_text hl d r text n mc =
        ⟨(truncateForSummary text mc).data.take 200⟩ ++ "..." ∧
      (summarize_text hl d r text n mc).length ≤ 203) := by
  refine ⟨rfl, fun hne => ?_⟩
  have heq : summarize_text hl d r text n mc =
      ⟨(truncateForSummary text mc).data.take 200⟩ ++ "..." := by
    simp only [summarize_text]
    rw [if_neg hne, hfail]
  refine ⟨heq, ?_⟩
  have h1 : ((truncateForSummary text mc).data.take 200).length ≤ 200 := by
    rw [List.length_take]
    omega
  have h3 : (String.mk ((truncateForSummary text mc).data.take 200)).length =
      ((truncateForSummary text mc).data.take 200).length := rfl
  have h2 : ("..." : String).length = 3 := rfl
  rw [heq, String.length_append]
  omega

/-- Witness for C7: with an always-failing ranker, the empty input summarizes
to the empty string and `"hello"` falls back to `"hello..."`. -/
theorem C7_ranking_failure_fallback_witness :
    summarize_text false noDetect noRank "" 3 3000 = "" ∧
    summarize_text false noDetect noRank "hello" 3 3000 = "hello..." := by
  have h := C7_ranking_failure_fallback false noDetect noRank "hello" 3 3000 rfl
  refine ⟨h.1, ?_⟩
  rw [(h.2 (by decide)).1]
  decide

/-- Counterexample to claim C8 as stated: a successful run writes exactly two
files — the combined output and the JSON index — and no human-readable
plain-text rendering. -/
theorem C8_counterexample :
    runWrittenPaths "/work" "output/merged.pdf" =
      ["output/merged.pdf", "output/summary_index.json"] ∧
    (runWrittenPaths "/work" "output/merged.pdf").length = 2 :=
  ⟨by decide, by decide⟩

/-- Claim C8 (amended): besides the combined output, the only artifact the
Index Persister writes is the structured JSON index `summary_index.json` in
the output directory; no human-readable plain-text rendering is produced. -/
theorem C8_no_text_rendering (cwd output : String) :
    ∀ p ∈ runWrittenPaths cwd output,
      p = output ∨ p = pyJoin (outDir cwd output) "summary_index.json" := by
  intro p hp
  simpa [runWrittenPaths, idxPath] using hp

/-- Witness for the amended C8: the JSON index path is among the written
paths, and it is the second alternative. -/
theorem C8_no_text_rendering_witness :
    "output/summary_index.json" = "output/merged.pdf" ∨
      "output/summary_index.json" =
        pyJoin (outDir "/work" "output/merged.pdf") "summary_index.json" :=
  C8_no_text_rendering "/work" "output/merged.pdf" "output/summary_index.json"
    (by decide)

/-- Claim C9: a zero or negative maximum character budget disables input
truncation — the whole text is handed to tokenizer selection and sentence
ranking unchanged. -/
theorem C9_nonpositive_budget_no_truncation (hl : Bool)
    (d : String → Option String) (r : String → String → Nat → Option String)
    (text : String) (n : Nat) (mc : Int) (hmc : mc ≤ 0) :
    truncateForSummary text mc = text ∧
    summarize_text hl d r text n mc =
      (if text = "" then ""
       else
         match r text (get_tokenizer_for_language hl d text) n with
         | some s => s
         | none => ⟨text.data.take 200⟩ ++ "...") := by
  have ht : truncateForSummary text mc = text := by
    unfold truncateForSummary
    rw [if_neg (fun hcon => absurd hcon.1 (by omega))]
  refine ⟨ht, ?_⟩
  simp only [summarize_text]
  rw [ht]

/-- Witness for C9: with budget 0 the two-character text `"hi"` is left
untouched and, under a failing ranker, falls back whole. -/
theorem C9_nonpositive_budget_no_truncation_witness :
    truncateForSummary "hi" 0 = "hi" ∧
    summarize_text false noDetect noRank "hi" 3 0 = "hi..." := by
  have h := C9_nonpositive_budget_no_truncation false noDetect noRank "hi" 3 0
    (by decide)
  refine ⟨h.1, ?_⟩
  rw [h.2]
  decide
